import Mathlib

/-!
Verification of the MOM3NT DATA training-cycle resolution and ranking engine
(`src/App.jsx`, latest revision unless noted).

Dates are modelled as day numbers since 1970-01-01 (the app stores calendar
days with no time component; `startOfDay` / ISO `YYYY-MM-DD` strings are in
bijection with day numbers).  Numeric entry values are modelled as rationals.
-/

namespace Mom3nt

/-- Calendar weekday, the key type of a weekly template
(the source keys templates by English weekday names). -/
inductive Weekday where
  | sunday | monday | tuesday | wednesday | thursday | friday | saturday
deriving DecidableEq, Fintype

/-- Day number since 1970-01-01 of the civil date y-m-d (Gregorian), valid for
years ≥ 1970.  Mirrors how the app turns `Date` values into calendar days. -/
def daysFromCivil (y m d : Nat) : Nat :=
  let y' := if m ≤ 2 then y - 1 else y
  let era := y' / 400
  let yoe := y' % 400
  let mp := (m + 9) % 12
  let doy := (153 * mp + 2) / 5 + (d - 1)
  let doe := yoe * 365 + yoe / 4 - yoe / 100 + doy
  era * 146097 + doe - 719468

/-- Weekday of a day number (1970-01-01 was a Thursday); models the source's
`dayName(d)` (which returns the English weekday name of the date). -/
def dayName (n : Nat) : Weekday :=
  match (n + 4) % 7 with
  | 0 => .sunday
  | 1 => .monday
  | 2 => .tuesday
  | 3 => .wednesday
  | 4 => .thursday
  | 5 => .friday
  | _ => .saturday

/-- A movement/exercise: `{ key, name, unit }` as in the source templates. -/
structure Movement where
  key : String
  name : String
  unit : String
deriving DecidableEq

/-- The sentinel returned for dates with no scheduled movement:
`{ key: 'tbd', name: 'TBD', unit: '' }`. -/
def TBD : Movement := { key := "tbd", name := "TBD", unit := "" }

/-- A weekly template: mapping from weekday to movement, kept in the
declaration order of the source object literal. -/
abbrev WeekTemplate := List (Weekday × Movement)

/-- `weekTemplate[dayName]`: first binding for the weekday, if any. -/
def lookupTemplate (t : WeekTemplate) (w : Weekday) : Option Movement :=
  (t.find? (fun p => decide (p.1 = w))).map Prod.snd

/-- Legacy block before Sep 1 (the original 7 movements). -/
def LEGACY_MOVEMENTS : WeekTemplate :=
  [ (.sunday,    { key := "sun", name := "3 Rep Max Landmine clean", unit := "lbs" }),
    (.monday,    { key := "mon", name := "6 Rep Reverse Lunge Max", unit := "lbs" }),
    (.tuesday,   { key := "tue", name := "Max power Keiser Push/Pull", unit := "watts" }),
    (.wednesday, { key := "wed", name := "Max Treadmill Speed", unit := "mph" }),
    (.thursday,  { key := "thu", name := "6 Rep Max Kickstand RDL", unit := "lbs" }),
    (.friday,    { key := "fri", name := "6 Rep Max S/A Pull Down", unit := "lbs" }),
    (.saturday,  { key := "sat", name := "Max distance 30 sec assault bike", unit := "miles" }) ]

def PREV_CYCLE_START : Nat := daysFromCivil 2025 7 6
def PREV_CYCLE_END : Nat := daysFromCivil 2025 8 31
def PREV_WEEK_TEMPLATE : WeekTemplate := LEGACY_MOVEMENTS

def SEPT_CYCLE_START : Nat := daysFromCivil 2025 9 1
def SEPT_CYCLE_WEEKS : Nat := 6
def SEPT_WEEK_TEMPLATE : WeekTemplate :=
  [ (.monday,    { key := "w_mon", name := "6 Rep Bulgarian Split Squat", unit := "lbs" }),
    (.tuesday,   { key := "w_tue", name := "6 Rep DB Floor Press", unit := "lbs" }),
    (.wednesday, { key := "w_wed", name := ".1 Distance Run", unit := "time" }),
    (.thursday,  { key := "w_thu", name := "6 Rep Smith RDL", unit := "lbs" }),
    (.friday,    { key := "w_fri", name := "Pull Up + Push Press EDT", unit := "rounds" }),
    (.saturday,  { key := "w_sat", name := "Ski/Curl/Squat METCON", unit := "time" }),
    (.sunday,    { key := "w_sun", name := "Keiser Rotate to Press", unit := "watts" }) ]

def OCT_CYCLE_START : Nat := daysFromCivil 2025 10 13
def OCT_CYCLE_WEEKS : Nat := 6
def OCT_WEEK_TEMPLATE : WeekTemplate :=
  [ (.monday,    { key := "o_mon", name := "Barbell Box Squat", unit := "lbs" }),
    (.tuesday,   { key := "o_tue", name := "Barbell Block Bench Press", unit := "lbs" }),
    (.wednesday, { key := "o_wed", name := ".25 Assault Bike", unit := "time" }),
    (.thursday,  { key := "o_thu", name := "Kickstand Landmine RDL", unit := "lbs" }),
    (.friday,    { key := "o_fri", name := "Half Kneeling S/A DB Press", unit := "lbs" }),
    (.saturday,  { key := "o_sat", name := ".25 Distance Run", unit := "time" }),
    (.sunday,    { key := "o_sun", name := "Kettlebell Complex", unit := "lbs" }) ]

def NOV_CYCLE_START : Nat := daysFromCivil 2025 11 24
def NOV_CYCLE_WEEKS : Nat := 6
def NOV_WEEK_TEMPLATE : WeekTemplate :=
  [ (.monday,    { key := "n_mon", name := "Keiser Belt Squat", unit := "watts" }),
    (.tuesday,   { key := "n_tue", name := "S/A Tempo DB Row", unit := "lbs" }),
    (.wednesday, { key := "n_wed", name := "Keiser Step Chop", unit := "watts" }),
    (.thursday,  { key := "n_thu", name := "Barbell Hip Thrust", unit := "lbs" }),
    (.friday,    { key := "n_fri", name := "S/A Kneeling Pull Down", unit := "kgs" }),
    (.saturday,  { key := "n_sat", name := "200 Meter Ski", unit := "time" }),
    (.sunday,    { key := "n_sun", name := "Landmine Clean + Jerk", unit := "lbs" }) ]

def JAN_CYCLE_START : Nat := daysFromCivil 2026 1 12
def JAN_CYCLE_WEEKS : Nat := 6
def JAN_WEEK_TEMPLATE : WeekTemplate :=
  [ (.monday,    { key := "j_mon", name := "Landmine kickstand squat 6 RM", unit := "lbs" }),
    (.tuesday,   { key := "j_tue", name := "Seated Cable Bench Row 6 RM", unit := "kgs" }),
    (.wednesday, { key := "j_wed", name := "Keiser Bar Chop Max Power", unit := "watts" }),
    (.thursday,  { key := "j_thu", name := "Smith Bulgarian Split Squat 6 RM", unit := "lbs" }),
    (.friday,    { key := "j_fri", name := "Smith Pin Press 6 RM", unit := "lbs" }),
    (.saturday,  { key := "j_sat", name := "Treadmill 30 Sec Max Distance", unit := "miles" }),
    (.sunday,    { key := "j_sun", name := "S/A Kickstand KB Clean", unit := "lbs" }) ]

/-- A configured cycle: start day, a week count or an explicit end override,
and a weekly template. -/
structure Cycle where
  start : Nat
  weeks : Nat := 0
  endOverride : Option Nat := none
  weekTemplate : WeekTemplate
deriving DecidableEq

/-- Cycles in order (Prev → Sep → Oct → Nov/Jan → Jan/Feb). -/
def CYCLES : List Cycle :=
  [ { start := PREV_CYCLE_START, endOverride := some PREV_CYCLE_END, weekTemplate := PREV_WEEK_TEMPLATE },
    { start := SEPT_CYCLE_START, weeks := SEPT_CYCLE_WEEKS, weekTemplate := SEPT_WEEK_TEMPLATE },
    { start := OCT_CYCLE_START, weeks := OCT_CYCLE_WEEKS, weekTemplate := OCT_WEEK_TEMPLATE },
    { start := NOV_CYCLE_START, weeks := NOV_CYCLE_WEEKS, weekTemplate := NOV_WEEK_TEMPLATE },
    { start := JAN_CYCLE_START, weeks := JAN_CYCLE_WEEKS, weekTemplate := JAN_WEEK_TEMPLATE } ]

/-- `getCycleBounds`: inclusive `[start, end]`; an explicit end override wins,
otherwise `end = start + weeks*7 - 1`. -/
def getCycleBounds (c : Cycle) : Nat × Nat :=
  match c.endOverride with
  | some e => (c.start, e)
  | none => (c.start, c.start + c.weeks * 7 - 1)

/-- `getCycleForDate` generalized over the cycle list it consults:
first cycle (in declaration order) whose inclusive range contains the day. -/
def getCycleForDateIn (cycles : List Cycle) (d : Nat) : Option Cycle :=
  cycles.find? (fun c =>
    decide ((getCycleBounds c).1 ≤ d) && decide (d ≤ (getCycleBounds c).2))

/-- `getCycleForDate(d)` of the source (consults the configured `CYCLES`). -/
def getCycleForDate (d : Nat) : Option Cycle :=
  getCycleForDateIn CYCLES d

/-- `movementForDate` generalized over the cycle list: look the weekday up in
the matched cycle's template; otherwise (or when the weekday is absent from
the template) return the TBD sentinel. -/
def movementForDateIn (cycles : List Cycle) (d : Nat) : Movement :=
  match getCycleForDateIn cycles d with
  | some cycle =>
    match lookupTemplate cycle.weekTemplate (dayName d) with
    | some mov => mov
    | none => TBD
  | none => TBD

/-- `movementForDate(d)` of the source (latest revision). -/
def movementForDate (d : Nat) : Movement :=
  movementForDateIn CYCLES d

/-- A stored entry row (`entries` table): owner, calendar day, movement name,
numeric value, unit, display name, gender, optional notes. -/
structure EntryRow where
  user_id : String
  date : Nat
  movement : String
  value : ℚ
  unit : String
  name : String
  gender : String
  notes : Option String := none
deriving DecidableEq

/-- JS `String.prototype.trim`: strip whitespace from both ends
(modelled on the character list so it evaluates). -/
def strTrim (s : String) : String :=
  ⟨((s.data.dropWhile Char.isWhitespace).reverse.dropWhile Char.isWhitespace).reverse⟩

/-- The person key of the leaderboard grouping:
`(r.name || 'Member').trim() || 'Member'`. -/
def personKey (nm : String) : String :=
  let base := if nm = "" then "Member" else nm
  if strTrim base = "" then "Member" else strTrim base

/-- `isBetter(newVal, prevVal)`: strictly better in the configured direction. -/
def isBetter (lowerIsBetter : Bool) (newVal prevVal : ℚ) : Bool :=
  if lowerIsBetter then decide (newVal < prevVal) else decide (prevVal < newVal)

/-- `Map.get`: value stored under a key (first binding). -/
def lookupAssoc (m : List (String × EntryRow)) (k : String) : Option EntryRow :=
  match m with
  | [] => none
  | (k', v) :: rest => if k' = k then some v else lookupAssoc rest k

/-- `Map.set`: replace the binding in place if the key is present,
otherwise append it (JS `Map` keeps insertion order). -/
def setAssoc (m : List (String × EntryRow)) (k : String) (v : EntryRow) :
    List (String × EntryRow) :=
  match m with
  | [] => [(k, v)]
  | (k', v') :: rest =>
    if k' = k then (k, v) :: rest else (k', v') :: setAssoc rest k v

/-- One step of the leaderboard loop:
`const prev = bucket.get(key); if (!prev || isBetter(r.value, prev.value)) bucket.set(key, r)`. -/
def insertEntry (lower : Bool) (m : List (String × EntryRow)) (r : EntryRow) :
    List (String × EntryRow) :=
  match lookupAssoc m (personKey r.name) with
  | none => setAssoc m (personKey r.name) r
  | some prev =>
    if isBetter lower r.value prev.value then setAssoc m (personKey r.name) r else m

/-- The `bestMale` / `bestFemale` maps after the loop over the filtered rows
(the loop dispatches each row on `r.gender === 'male'`). -/
def buildBuckets (lower : Bool) (rows : List EntryRow) :
    List (String × EntryRow) × List (String × EntryRow) :=
  rows.foldl
    (fun acc r =>
      if r.gender = "male" then (insertEntry lower acc.1 r, acc.2)
      else (acc.1, insertEntry lower acc.2 r))
    ([], [])

/-- The fixed lower-is-better allow-list (`LOWER_BETTER_MOVES`). -/
def LOWER_BETTER_MOVES : List String :=
  [".1 Distance Run", ".25 Assault Bike", ".25 Distance Run", "200 Meter Ski"]

/-- First movement of a template whose name matches, yielding its unit. -/
def findUnitInTemplate (t : WeekTemplate) (movementName : String) : Option String :=
  (t.find? (fun p => decide (p.2.name = movementName))).map (fun p => p.2.unit)

/-- `getMovementUnitByName`: scan the cycles in order, then the legacy block;
empty string if nothing matches (or the name is empty). -/
def getMovementUnitByName (movementName : String) : String :=
  if movementName = "" then ""
  else
    match CYCLES.findSome? (fun cy => findUnitInTemplate cy.weekTemplate movementName) with
    | some u => u
    | none =>
      match findUnitInTemplate LEGACY_MOVEMENTS movementName with
      | some u => u
      | none => ""

/-- `lowerIsBetter = movementUnit === 'time' || LOWER_BETTER_MOVES.has(name)`. -/
def lowerIsBetterFor (movementName : String) : Bool :=
  decide (getMovementUnitByName movementName = "time") ||
    LOWER_BETTER_MOVES.contains movementName

/-- The `rows` filter of the leaderboard: matching movement and a recognized
gender (`male` or `female`); anything else is excluded entirely. -/
def matchingRows (entries : List EntryRow) (movementName : String) : List EntryRow :=
  entries.filter (fun e =>
    decide (e.movement = movementName) &&
      (decide (e.gender = "male") || decide (e.gender = "female")))

/-- The sort comparator as a boolean `le`: ascending by value when lower is
better, descending otherwise (JS `sort` is stable and consistent with it). -/
def sortFn (lower : Bool) : EntryRow → EntryRow → Bool :=
  if lower then fun a b => decide (a.value ≤ b.value)
  else fun a b => decide (b.value ≤ a.value)

/-- `top5`: sorted values of a bucket, truncated to the first 5. -/
def top5 (lower : Bool) (m : List (String × EntryRow)) : List EntryRow :=
  ((m.map Prod.snd).mergeSort (sortFn lower)).take 5

/-- The leaderboard result record `{ male, female, unit }`. -/
structure Leaderboard where
  male : List EntryRow
  female : List EntryRow
  unit : String
deriving DecidableEq

/-- The leaderboard computation (latest revision):
empty when no movement is selected; otherwise filter, bucket by person key
per gender, sort per direction, truncate to the top 5. -/
def leaderboard (entries : List EntryRow) (lbMovementName : String) : Leaderboard :=
  if lbMovementName = "" then { male := [], female := [], unit := "" }
  else
    let movementUnit := getMovementUnitByName lbMovementName
    let lower := lowerIsBetterFor lbMovementName
    let buckets := buildBuckets lower (matchingRows entries lbMovementName)
    { male := top5 lower buckets.1, female := top5 lower buckets.2, unit := movementUnit }

/-- The bucket a row's gender selects
(`r.gender === 'male' ? bestMale : bestFemale`). -/
def bucketOf (entries : List EntryRow) (movementName g : String) :
    List (String × EntryRow) :=
  if g = "male" then (buildBuckets (lowerIsBetterFor movementName) (matchingRows entries movementName)).1
  else (buildBuckets (lowerIsBetterFor movementName) (matchingRows entries movementName)).2

/-- The invariant of the bucket loop: distinct person keys, and each stored
row belongs to the processed rows, carries its key, and no processed row with
the same key strictly beats it; every processed row's key is present. -/
def goodBucket (lower : Bool) (m : List (String × EntryRow)) (rows : List EntryRow) : Prop :=
  (m.map Prod.fst).Nodup ∧
  (∀ k e, lookupAssoc m k = some e →
    personKey e.name = k ∧ e ∈ rows ∧
    ∀ r ∈ rows, personKey r.name = k → isBetter lower r.value e.value = false) ∧
  (∀ r ∈ rows, (lookupAssoc m (personKey r.name)).isSome = true)

/-- The result domain of JS `parseFloat` on the sanitized numeric input
(digits with at most one dot): `NaN` for an empty or bare-dot input, a
finite nonnegative decimal otherwise — except that a literal of 309 or more
integer digits overflows the double range and parses to `+Infinity`.  The
sanitizer strips signs, so negative and `-Infinity` parses are unreachable;
negative finite values are still representable here since `parseFloat`
itself can produce them. -/
inductive ParsedFloat where
  | nan
  | posInf
  | finite (q : ℚ)
deriving DecidableEq

/-- JS truthiness-negation `!v` of a parsed number: `NaN` and `0` are falsy;
`+Infinity` and every nonzero finite value are truthy. -/
def ParsedFloat.isFalsy : ParsedFloat → Bool
  | .nan => true
  | .posInf => false
  | .finite q => decide (q = 0)

/-- JS `v <= 0` on a parsed number: false for `NaN` (comparisons with `NaN`
are false) and for `+Infinity`. -/
def ParsedFloat.leZero : ParsedFloat → Bool
  | .nan => false
  | .posInf => false
  | .finite q => decide (q ≤ 0)

/-- A stored entry row as the full JS model sees it: identical to `EntryRow`
except that the numeric value is a JS number, which may be the non-finite
`+Infinity` produced by an overflowing parse. -/
structure EntryRowJS where
  user_id : String
  date : Nat
  movement : String
  value : ParsedFloat
  unit : String
  name : String
  gender : String
  notes : Option String := none
deriving DecidableEq

/-- `saveEntry` (latest revision) with `parseFloat` modelled on its full
result domain.  Guards mirror the source order: session, profile
(name/gender), TBD day, then `!v || v <= 0` — which rejects `NaN` (falsy),
`0` (falsy) and negative finite values, but lets `+Infinity` through (it is
truthy and not `<= 0`), so an overflowing parse is written. -/
def saveEntryJS (session : Option String) (name gender : String) (selectedDate : Nat)
    (inputVal : ParsedFloat) (inputNotes : String) : Option EntryRowJS :=
  match session with
  | none => none
  | some userId =>
    if strTrim name = "" ∨ gender = "" then none
    else
      let mov := movementForDate selectedDate
      if mov.name = "TBD" then none
      else
        if inputVal.isFalsy || inputVal.leZero then none
        else
          let notes := strTrim inputNotes
          some { user_id := userId, date := selectedDate, movement := mov.name,
                 value := inputVal, unit := mov.unit, name := strTrim name,
                 gender := gender, notes := if notes = "" then none else some notes }

/-- `saveEntry` restricted to the NaN/finite fragment of the parse (value
`Option ℚ`, `none` = `NaN`), the fragment the upsert and TBD claims use; it
agrees with `saveEntryJS` there (`saveEntryJS_agrees_on_finite`).  The
guards mirror the source order: session, profile (name/gender), TBD day,
`!v || v <= 0`. -/
def saveEntry (session : Option String) (name gender : String) (selectedDate : Nat)
    (inputVal : Option ℚ) (inputNotes : String) : Option EntryRow :=
  match session with
  | none => none
  | some userId =>
    if strTrim name = "" ∨ gender = "" then none
    else
      let mov := movementForDate selectedDate
      if mov.name = "TBD" then none
      else
        match inputVal with
        | none => none
        | some v =>
          if v ≤ 0 then none
          else
            let notes := strTrim inputNotes
            some { user_id := userId, date := selectedDate, movement := mov.name,
                   value := v, unit := mov.unit, name := strTrim name, gender := gender,
                   notes := if notes = "" then none else some notes }

/-- Does an entry carry the given (owner, day) key? -/
def sameKey (u : String) (d : Nat) (e : EntryRow) : Bool :=
  decide (e.user_id = u) && decide (e.date = d)

/-- Modelled from the spec: the external entry store (a row-oriented table not
part of this repository) with upsert keyed on `(user_id, date)` — "a write
operation that performs an upsert keyed on (owner_id, date): last write for a
given day replaces the prior one".  A write replaces every row sharing the
key, else appends. -/
def upsertEntry (store : List EntryRow) (row : EntryRow) : List EntryRow :=
  if store.any (sameKey row.user_id row.date) then
    store.map (fun e => if sameKey row.user_id row.date e then row else e)
  else store ++ [row]

/-- JS `Math.trunc` on rationals: round toward zero. -/
def jsTrunc (q : ℚ) : ℤ :=
  if 0 ≤ q then ⌊q⌋ else ⌈q⌉

/-- JS `Math.round`: round half toward positive infinity. -/
def jsRound (q : ℚ) : ℤ :=
  ⌊q + 1 / 2⌋

/-- Rounding half away from zero to `f` fraction digits: the rounding
`toLocaleString` / `Intl.NumberFormat` applies under its default
`maximumFractionDigits` handling (`halfExpand`). -/
def roundHalfExpand (q : ℚ) (f : Nat) : ℚ :=
  let s : ℚ := (10 : ℚ) ^ f
  (if 0 ≤ q then (⌊q * s + 1 / 2⌋ : ℚ) else (⌈q * s - 1 / 2⌉ : ℚ)) / s

/-- Numeric value displayed by `formatExactValue` (tooltip/exact surface):
truncate to two decimals, then render via `toLocaleString` with
`maximumFractionDigits` 0, 1 or 2 picked from `hasDecimals`/`oneDecimal`
(which re-rounds the truncated value to that many digits). -/
def formatExactValueQ (val : ℚ) : ℚ :=
  let truncated : ℚ := (jsTrunc (val * 100) : ℚ) / 100
  let hasDecimals : Bool := decide (truncated ≠ (jsTrunc truncated : ℚ))
  let oneDecimal : Bool :=
    decide (|(jsTrunc (truncated * 10) : ℚ) / 10 - (jsTrunc truncated : ℚ)| > 0)
  let maxFrac : Nat := if hasDecimals then (if oneDecimal then 1 else 2) else 0
  roundHalfExpand truncated maxFrac

/-- JS `toFixed(f)` as a rational: nearest multiple of `10^-f`, ties toward
positive infinity ("pick the larger n"). -/
def toFixedQ (q : ℚ) (f : Nat) : ℚ :=
  (jsRound (q * (10 : ℚ) ^ f) : ℚ) / (10 : ℚ) ^ f

/-- Numeric value displayed by `formatNiceNumber` (axis-label surface):
integer rounding at `|n| ≥ 10`, `toFixed(1)` at `|n| ≥ 1`, `toFixed(2)`
below (trailing-zero stripping changes only the text, not the value). -/
def formatNiceNumberQ (val : ℚ) : ℚ :=
  if |val| ≥ 1000 then (jsRound val : ℚ)
  else if |val| ≥ 100 then (jsRound val : ℚ)
  else if |val| ≥ 10 then (jsRound val : ℚ)
  else if |val| ≥ 1 then toFixedQ val 1
  else toFixedQ val 2

/-- Sample entry: Alice, 100 lbs on the first Oct-cycle Monday. -/
def sampleA1 : EntryRow :=
  { user_id := "u1", date := daysFromCivil 2025 10 13, movement := "Barbell Box Squat",
    value := 100, unit := "lbs", name := "Alice", gender := "female" }

/-- Sample entry: Alice again a week later, 120 lbs. -/
def sampleA2 : EntryRow :=
  { user_id := "u1", date := daysFromCivil 2025 10 20, movement := "Barbell Box Squat",
    value := 120, unit := "lbs", name := "Alice", gender := "female" }

/-- Sample entry: Bob, 90 lbs. -/
def sampleB : EntryRow :=
  { user_id := "u2", date := daysFromCivil 2025 10 13, movement := "Barbell Box Squat",
    value := 90, unit := "lbs", name := "Bob", gender := "male" }

/-- A small sample entry log. -/
def sampleEntries : List EntryRow := [sampleA1, sampleA2, sampleB]

example : dayName (daysFromCivil 2025 7 6) = .sunday := by decide
example : dayName (daysFromCivil 2025 9 1) = .monday := by decide
example : dayName (daysFromCivil 2026 1 12) = .monday := by decide
example : daysFromCivil 1970 1 1 = 0 := by decide
example : movementForDate (daysFromCivil 2025 9 1) =
    { key := "w_mon", name := "6 Rep Bulgarian Split Squat", unit := "lbs" } := by decide
example : movementForDate (daysFromCivil 2026 1 5) = TBD := by decide
example : movementForDate (daysFromCivil 2026 1 11) = TBD := by decide
example : movementForDate (daysFromCivil 2026 1 4) =
    { key := "n_sun", name := "Landmine Clean + Jerk", unit := "lbs" } := by decide
example : jsTrunc (5/4 * 100) = 125 := by norm_num [jsTrunc]
example : formatExactValueQ (5/4) = 13/10 := by
  norm_num [formatExactValueQ, jsTrunc, roundHalfExpand]
example : formatExactValueQ (21/20) = 21/20 := by
  norm_num [formatExactValueQ, jsTrunc, roundHalfExpand]
example : formatNiceNumberQ (11/20) = 11/20 := by
  have h : |(11 : ℚ)/20| = 11/20 := abs_of_nonneg (by norm_num)
  norm_num [formatNiceNumberQ, toFixedQ, jsRound, h]
example : getMovementUnitByName ".25 Assault Bike" = "time" := by decide
example : lowerIsBetterFor "Barbell Box Squat" = false := by decide
example : lowerIsBetterFor "200 Meter Ski" = true := by decide
example : personKey " Bob  " = "Bob" := by decide
example : personKey "" = "Member" := by decide
example : saveEntry (some "u") "Alice" "female" (daysFromCivil 2025 9 1) (some 100) "" =
    some { user_id := "u", date := daysFromCivil 2025 9 1,
           movement := "6 Rep Bulgarian Split Squat", value := 100, unit := "lbs",
           name := "Alice", gender := "female", notes := none } := by decide

/-! ### Cycle resolution -/

/-- Every configured cycle's weekly template maps all seven weekdays. -/
lemma templates_total :
    ∀ c ∈ CYCLES, ∀ w : Weekday, (lookupTemplate c.weekTemplate w).isSome = true := by
  decide

/-- C1: for every date inside some configured cycle (the first match in
declaration order), `movementForDate` returns the movement its weekly
template maps the date's weekday to. -/
theorem movementForDate_in_cycle (d : Nat) (c : Cycle)
    (h : getCycleForDate d = some c) :
    ∃ mov, lookupTemplate c.weekTemplate (dayName d) = some mov ∧
      movementForDate d = mov := by
  have hf : CYCLES.find?
      (fun c => decide ((getCycleBounds c).1 ≤ d) && decide (d ≤ (getCycleBounds c).2)) =
      some c := h
  have hc : c ∈ CYCLES := List.mem_of_find?_eq_some hf
  obtain ⟨mov, hmov⟩ := Option.isSome_iff_exists.mp (templates_total c hc (dayName d))
  refine ⟨mov, hmov, ?_⟩
  have h' : getCycleForDateIn CYCLES d = some c := h
  simp [movementForDate, movementForDateIn, h', hmov]

/-- C1 witness: 2025-09-01 lies in the September cycle and resolves through
its template. -/
theorem movementForDate_in_cycle_witness :
    ∃ mov, lookupTemplate SEPT_WEEK_TEMPLATE (dayName (daysFromCivil 2025 9 1)) = some mov ∧
      movementForDate (daysFromCivil 2025 9 1) = mov :=
  movementForDate_in_cycle (daysFromCivil 2025 9 1)
    { start := SEPT_CYCLE_START, weeks := SEPT_CYCLE_WEEKS, endOverride := none,
      weekTemplate := SEPT_WEEK_TEMPLATE } (by decide)

/-- C5 (amended): when the matched cycle's weekly template has no binding for
the date's weekday, `movementForDate` returns the TBD sentinel directly — the
legacy template is never consulted; and in the shipped configuration every
template maps all seven weekdays, so that case never arises. -/
theorem movementForDate_missing_weekday_no_fallback :
    (∀ (cycles : List Cycle) (d : Nat) (c : Cycle),
        getCycleForDateIn cycles d = some c →
        lookupTemplate c.weekTemplate (dayName d) = none →
        movementForDateIn cycles d = TBD) ∧
    (∀ c ∈ CYCLES, ∀ w : Weekday, (lookupTemplate c.weekTemplate w).isSome = true) :=
  ⟨fun _cycles _d _c h1 h2 => by simp [movementForDateIn, h1, h2], templates_total⟩

/-- C5 witness: a one-cycle configuration with an empty template resolves a
contained date to TBD. -/
theorem movementForDate_missing_weekday_no_fallback_witness :
    movementForDateIn
      [{ start := daysFromCivil 2025 7 7, weeks := 1, endOverride := none, weekTemplate := [] }]
      (daysFromCivil 2025 7 7) = TBD :=
  movementForDate_missing_weekday_no_fallback.1 _ (daysFromCivil 2025 7 7)
    { start := daysFromCivil 2025 7 7, weeks := 1, endOverride := none, weekTemplate := [] }
    (by decide) (by decide)

/-- C5 counterexample: a date inside a cycle whose template lacks its weekday
(a Monday) resolves to TBD, not to the legacy template's Monday movement —
`movementForDate` never consults `LEGACY_MOVEMENTS`. -/
theorem movementForDate_ignores_legacy_fallback :
    getCycleForDateIn
        [{ start := daysFromCivil 2025 7 7, weeks := 1, endOverride := none, weekTemplate := [] }]
        (daysFromCivil 2025 7 7) =
      some { start := daysFromCivil 2025 7 7, weeks := 1, endOverride := none,
             weekTemplate := [] } ∧
    lookupTemplate ([] : WeekTemplate) (dayName (daysFromCivil 2025 7 7)) = none ∧
    lookupTemplate LEGACY_MOVEMENTS (dayName (daysFromCivil 2025 7 7)) =
      some { key := "mon", name := "6 Rep Reverse Lunge Max", unit := "lbs" } ∧
    movementForDateIn
        [{ start := daysFromCivil 2025 7 7, weeks := 1, endOverride := none, weekTemplate := [] }]
        (daysFromCivil 2025 7 7) = TBD ∧
    TBD ≠ { key := "mon", name := "6 Rep Reverse Lunge Max", unit := "lbs" } := by
  decide

/-- C6: a date outside every configured cycle resolves to the TBD sentinel
(name `TBD`, empty unit) and `saveEntry` writes nothing for it, whatever the
other inputs are. -/
theorem outside_cycles_resolves_TBD_and_blocks_save (d : Nat)
    (h : getCycleForDate d = none) :
    movementForDate d = TBD ∧ (movementForDate d).name = "TBD" ∧
    (movementForDate d).unit = "" ∧
    ∀ session name gender v notes, saveEntry session name gender d v notes = none := by
  have h' : getCycleForDateIn CYCLES d = none := h
  have hm : movementForDate d = TBD := by simp [movementForDate, movementForDateIn, h']
  refine ⟨hm, by rw [hm]; rfl, by rw [hm]; rfl, ?_⟩
  intro session name gender v notes
  cases session with
  | none => rfl
  | some u =>
    simp only [saveEntry, hm]
    split
    · rfl
    · simp [TBD]

/-- C6 witness: 2026-01-05 (in the gap week) resolves to TBD and cannot be
saved. -/
theorem outside_cycles_resolves_TBD_and_blocks_save_witness :
    movementForDate (daysFromCivil 2026 1 5) = TBD ∧
    saveEntry (some "u") "Alice" "female" (daysFromCivil 2026 1 5) (some 100) "" = none := by
  have h := outside_cycles_resolves_TBD_and_blocks_save (daysFromCivil 2026 1 5) (by decide)
  exact ⟨h.1, h.2.2.2 (some "u") "Alice" "female" (some 100) ""⟩

/-- On the NaN/finite fragment of the parse, the full JS model and the
rational-valued `saveEntry` coincide (the written row differs only in the
value wrapper). -/
lemma saveEntryJS_agrees_on_finite (session : Option String) (name gender : String)
    (d : Nat) (v : Option ℚ) (notes : String) :
    saveEntryJS session name gender d
        (match v with
          | none => ParsedFloat.nan
          | some q => ParsedFloat.finite q) notes =
      (saveEntry session name gender d v notes).map
        (fun r => { user_id := r.user_id, date := r.date, movement := r.movement,
                    value := ParsedFloat.finite r.value, unit := r.unit, name := r.name,
                    gender := r.gender, notes := r.notes }) := by
  cases session with
  | none => cases v <;> rfl
  | some u =>
    cases v with
    | none =>
      simp only [saveEntryJS, saveEntry]
      split
      · rfl
      · split
        · rfl
        · rfl
    | some q =>
      simp only [saveEntryJS, saveEntry]
      split
      · rfl
      · split
        · rfl
        · by_cases hq : q ≤ 0
          · have hcond : (ParsedFloat.isFalsy (.finite q) || ParsedFloat.leZero (.finite q)) = true := by
              simp [ParsedFloat.isFalsy, ParsedFloat.leZero, hq]
            rw [if_pos hcond, if_pos hq]
            rfl
          · have hq0 : ¬ q = 0 := fun h => hq (le_of_eq h)
            have hcond : ¬ ((ParsedFloat.isFalsy (.finite q) || ParsedFloat.leZero (.finite q)) = true) := by
              simp [ParsedFloat.isFalsy, ParsedFloat.leZero, hq, hq0]
            rw [if_neg hcond, if_neg hq]
            rfl

/-- C7 (amended): a `NaN` parse or a non-positive finite parse is rejected —
`saveEntry` writes nothing — and every row a save does produce carries
either a positive finite value or the non-finite `+Infinity` (which the
guard `!v || v <= 0` does not reject), so stored values need not be
finite. -/
theorem saveEntryJS_rejects_nan_and_nonpositive (session : Option String)
    (name gender : String) (d : Nat) (v : ParsedFloat) (notes : String) :
    ((v = .nan ∨ ∃ q, v = .finite q ∧ q ≤ 0) →
      saveEntryJS session name gender d v notes = none) ∧
    (∀ r, saveEntryJS session name gender d v notes = some r →
      r.value = .posInf ∨ ∃ q, r.value = .finite q ∧ 0 < q) := by
  cases session with
  | none => exact ⟨fun _ => rfl, fun r h => Option.noConfusion h⟩
  | some u =>
    constructor
    · intro hv
      simp only [saveEntryJS]
      split
      · rfl
      · split
        · rfl
        · rcases hv with rfl | ⟨q, rfl, hq⟩
          · rfl
          · simp [ParsedFloat.isFalsy, ParsedFloat.leZero, hq]
    · intro r h
      simp only [saveEntryJS] at h
      split at h
      · exact Option.noConfusion h
      · split at h
        · exact Option.noConfusion h
        · split at h
          next hg => exact Option.noConfusion h
          next hg =>
            injection h with h
            subst h
            cases v with
            | nan => simp [ParsedFloat.isFalsy] at hg
            | posInf => exact Or.inl rfl
            | finite q =>
              refine Or.inr ⟨q, rfl, ?_⟩
              simp only [ParsedFloat.isFalsy, ParsedFloat.leZero, Bool.or_eq_true,
                decide_eq_true_eq, not_or] at hg
              exact not_le.mp hg.2

/-- C7 witness: a failed parse and a zero value are both rejected on a date
inside the September cycle. -/
theorem saveEntryJS_rejects_nan_and_nonpositive_witness :
    saveEntryJS (some "u") "Alice" "female" (daysFromCivil 2025 9 1) .nan "" = none ∧
    saveEntryJS (some "u") "Alice" "female" (daysFromCivil 2025 9 1) (.finite 0) "" = none :=
  ⟨(saveEntryJS_rejects_nan_and_nonpositive (some "u") "Alice" "female"
      (daysFromCivil 2025 9 1) .nan "").1 (Or.inl rfl),
   (saveEntryJS_rejects_nan_and_nonpositive (some "u") "Alice" "female"
      (daysFromCivil 2025 9 1) (.finite 0) "").1 (Or.inr ⟨0, rfl, le_refl 0⟩)⟩

/-- C7 counterexample: `parseFloat` of a sanitized 310-digit input (all
nines) overflows to `+Infinity` — a non-finite parse — yet the guard
`!v || v <= 0` evaluates false on it, `saveEntry` performs the write, and
the stored row carries the non-finite value, reaching the ranking/series
consumers. -/
theorem saveEntry_accepts_infinite_parse :
    (ParsedFloat.posInf.isFalsy || ParsedFloat.posInf.leZero) = false ∧
    saveEntryJS (some "u") "Alice" "female" (daysFromCivil 2025 9 1) .posInf "" =
      some { user_id := "u", date := daysFromCivil 2025 9 1,
             movement := "6 Rep Bulgarian Split Squat", value := .posInf, unit := "lbs",
             name := "Alice", gender := "female", notes := none } ∧
    (ParsedFloat.posInf ≠ .nan ∧ ∀ q : ℚ, ParsedFloat.posInf ≠ .finite q) := by
  refine ⟨by decide, by decide, by decide, fun q => ParsedFloat.noConfusion⟩

/-! ### Ranking engine: the per-person best buckets -/

lemma isBetter_self (lower : Bool) (a : ℚ) : isBetter lower a a = false := by
  cases lower <;> simp [isBetter]

lemma isBetter_eq_false_iff (lower : Bool) (a b : ℚ) :
    isBetter lower a b = false ↔ (if lower then b ≤ a else a ≤ b) := by
  cases lower <;> simp [isBetter, not_lt]

lemma isBetter_false_of (lower : Bool) {a b c : ℚ}
    (h1 : isBetter lower b a = true) (h2 : isBetter lower c a = false) :
    isBetter lower c b = false := by
  cases lower with
  | false =>
    simp only [isBetter, not_lt, Bool.false_eq_true, if_false, decide_eq_true_eq,
      decide_eq_false_iff_not] at h1 h2 ⊢
    linarith
  | true =>
    simp only [isBetter, not_lt, if_true, decide_eq_true_eq,
      decide_eq_false_iff_not] at h1 h2 ⊢
    linarith

lemma lookupAssoc_eq_none_iff (m : List (String × EntryRow)) (k : String) :
    lookupAssoc m k = none ↔ k ∉ m.map Prod.fst := by
  induction m with
  | nil => simp [lookupAssoc]
  | cons p rest ih =>
    obtain ⟨k', v⟩ := p
    by_cases h : k' = k
    · subst h; simp [lookupAssoc]
    · simp only [lookupAssoc, if_neg h, List.map_cons, List.mem_cons, ih]
      constructor
      · rintro hnk (hk | hk)
        · exact h hk.symm
        · exact hnk hk
      · intro hnk hk
        exact hnk (Or.inr hk)

lemma lookupAssoc_setAssoc (m : List (String × EntryRow)) (k0 k : String) (v : EntryRow) :
    lookupAssoc (setAssoc m k0 v) k = if k0 = k then some v else lookupAssoc m k := by
  induction m with
  | nil => by_cases h : k0 = k <;> simp [setAssoc, lookupAssoc, h]
  | cons p rest ih =>
    obtain ⟨k', v'⟩ := p
    by_cases h1 : k' = k0
    · subst h1
      by_cases h2 : k' = k <;> simp [setAssoc, lookupAssoc, h2]
    · by_cases h2 : k' = k
      · subst h2
        have h3 : ¬ k0 = k' := fun hk => h1 hk.symm
        simp [setAssoc, lookupAssoc, h1, h3]
      · simp [setAssoc, lookupAssoc, h1, h2, ih]

lemma setAssoc_keys_of_none (m : List (String × EntryRow)) (k0 : String) (v : EntryRow)
    (h : lookupAssoc m k0 = none) :
    (setAssoc m k0 v).map Prod.fst = m.map Prod.fst ++ [k0] := by
  induction m with
  | nil => simp [setAssoc]
  | cons p rest ih =>
    obtain ⟨k', v'⟩ := p
    simp only [lookupAssoc] at h
    by_cases h1 : k' = k0
    · simp [h1] at h
    · simp only [h1, if_false] at h
      simp [setAssoc, h1, ih h]

lemma setAssoc_keys_of_some (m : List (String × EntryRow)) (k0 : String) (v e : EntryRow)
    (h : lookupAssoc m k0 = some e) :
    (setAssoc m k0 v).map Prod.fst = m.map Prod.fst := by
  induction m with
  | nil => simp [lookupAssoc] at h
  | cons p rest ih =>
    obtain ⟨k', v'⟩ := p
    simp only [lookupAssoc] at h
    by_cases h1 : k' = k0
    · subst h1; simp [setAssoc]
    · simp only [h1, if_false] at h
      simp [setAssoc, h1, ih h]

lemma goodBucket_nil (lower : Bool) : goodBucket lower [] [] := by
  refine ⟨List.nodup_nil, ?_, ?_⟩ <;> simp [lookupAssoc]

lemma goodBucket_insert {lower : Bool} {m : List (String × EntryRow)} {rows : List EntryRow}
    (h : goodBucket lower m rows) (r : EntryRow) :
    goodBucket lower (insertEntry lower m r) (rows ++ [r]) := by
  obtain ⟨h1, h2, h3⟩ := h
  cases hl : lookupAssoc m (personKey r.name) with
  | none =>
    simp only [insertEntry, hl]
    refine ⟨?_, ?_, ?_⟩
    · rw [setAssoc_keys_of_none m _ r hl]
      rw [List.nodup_append]
      exact ⟨h1, List.nodup_singleton _,
        by simpa using (lookupAssoc_eq_none_iff m (personKey r.name)).mp hl⟩
    · intro k e hke
      rw [lookupAssoc_setAssoc] at hke
      by_cases hk : personKey r.name = k
      · subst hk
        rw [if_pos rfl] at hke
        injection hke with hke
        subst hke
        refine ⟨rfl, by simp, ?_⟩
        intro r' hr' hkey'
        rcases List.mem_append.mp hr' with hr' | hr'
        · have hs := h3 r' hr'
          rw [hkey', hl] at hs
          exact absurd hs (by simp)
        · rw [List.mem_singleton.mp hr']
          exact isBetter_self lower r.value
      · simp only [if_neg hk] at hke
        obtain ⟨ha, hb, hc⟩ := h2 k e hke
        refine ⟨ha, List.mem_append_left _ hb, ?_⟩
        intro r' hr' hkey'
        rcases List.mem_append.mp hr' with hr' | hr'
        · exact hc r' hr' hkey'
        · rw [List.mem_singleton.mp hr'] at hkey' ⊢
          exact absurd hkey' hk
    · intro r' hr'
      rw [lookupAssoc_setAssoc]
      rcases List.mem_append.mp hr' with hr' | hr'
      · by_cases hk : personKey r.name = personKey r'.name
        · simp [hk]
        · simp only [if_neg hk]
          exact h3 r' hr'
      · rw [List.mem_singleton.mp hr']
        simp
  | some prev =>
    simp only [insertEntry, hl]
    by_cases hib : isBetter lower r.value prev.value = true
    · simp only [hib, if_true]
      refine ⟨?_, ?_, ?_⟩
      · rw [setAssoc_keys_of_some m _ r prev hl]; exact h1
      · intro k e hke
        rw [lookupAssoc_setAssoc] at hke
        by_cases hk : personKey r.name = k
        · subst hk
          rw [if_pos rfl] at hke
          injection hke with hke
          subst hke
          refine ⟨rfl, by simp, ?_⟩
          intro r' hr' hkey'
          rcases List.mem_append.mp hr' with hr' | hr'
          · have hprev := (h2 _ prev hl).2.2 r' hr' hkey'
            exact isBetter_false_of lower hib hprev
          · rw [List.mem_singleton.mp hr']
            exact isBetter_self lower r.value
        · simp only [if_neg hk] at hke
          obtain ⟨ha, hb, hc⟩ := h2 k e hke
          refine ⟨ha, List.mem_append_left _ hb, ?_⟩
          intro r' hr' hkey'
          rcases List.mem_append.mp hr' with hr' | hr'
          · exact hc r' hr' hkey'
          · rw [List.mem_singleton.mp hr'] at hkey' ⊢
            exact absurd hkey' hk
      · intro r' hr'
        rw [lookupAssoc_setAssoc]
        rcases List.mem_append.mp hr' with hr' | hr'
        · by_cases hk : personKey r.name = personKey r'.name
          · simp [hk]
          · simp only [if_neg hk]
            exact h3 r' hr'
        · rw [List.mem_singleton.mp hr']
          simp
    · have hib' : isBetter lower r.value prev.value = false := by
        revert hib; cases isBetter lower r.value prev.value <;> simp
      simp only [hib', Bool.false_eq_true, if_false]
      refine ⟨h1, ?_, ?_⟩
      · intro k e hke
        obtain ⟨ha, hb, hc⟩ := h2 k e hke
        refine ⟨ha, List.mem_append_left _ hb, ?_⟩
        intro r' hr' hkey'
        rcases List.mem_append.mp hr' with hr' | hr'
        · exact hc r' hr' hkey'
        · rw [List.mem_singleton.mp hr'] at hkey' ⊢
          rw [← hkey'] at hke
          rw [hl] at hke
          cases hke
          exact hib'
      · intro r' hr'
        rcases List.mem_append.mp hr' with hr' | hr'
        · exact h3 r' hr'
        · rw [List.mem_singleton.mp hr', hl]
          rfl

lemma goodBucket_foldl {lower : Bool} (rows : List EntryRow) :
    ∀ (m : List (String × EntryRow)) (acc : List EntryRow),
      goodBucket lower m acc →
      goodBucket lower (rows.foldl (insertEntry lower) m) (acc ++ rows) := by
  induction rows with
  | nil => intro m acc h; simpa using h
  | cons r rest ih =>
    intro m acc h
    have h' := goodBucket_insert h r
    have := ih (insertEntry lower m r) (acc ++ [r]) h'
    simpa using this

lemma goodBucket_bestFor (lower : Bool) (rows : List EntryRow) :
    goodBucket lower (rows.foldl (insertEntry lower) []) rows := by
  simpa using goodBucket_foldl rows [] [] (goodBucket_nil lower)

lemma buildBuckets_eq (lower : Bool) (rows : List EntryRow) :
    buildBuckets lower rows =
      ((rows.filter fun r => decide (r.gender = "male")).foldl (insertEntry lower) [],
       (rows.filter fun r => !decide (r.gender = "male")).foldl (insertEntry lower) []) := by
  suffices h : ∀ (rows : List EntryRow) (bm bf : List (String × EntryRow)),
      rows.foldl
        (fun acc r =>
          if r.gender = "male" then (insertEntry lower acc.1 r, acc.2)
          else (acc.1, insertEntry lower acc.2 r)) (bm, bf) =
      ((rows.filter fun r => decide (r.gender = "male")).foldl (insertEntry lower) bm,
       (rows.filter fun r => !decide (r.gender = "male")).foldl (insertEntry lower) bf) by
    exact h rows [] []
  intro rows
  induction rows with
  | nil => intro bm bf; simp
  | cons r rest ih =>
    intro bm bf
    by_cases hg : r.gender = "male" <;> simp [hg, ih]

/-- C2: every person with at least one matching entry of recognized gender
contributes exactly one row to that gender's bucket, keyed by the normalized
person key, and that row carries the person's best (max, or min when lower is
better) value among their matching entries of that gender. -/
theorem bucket_one_best_row_per_person (entries : List EntryRow) (movementName : String)
    (r0 : EntryRow) (h0 : r0 ∈ matchingRows entries movementName) :
    ((bucketOf entries movementName r0.gender).map Prod.fst).count (personKey r0.name) = 1 ∧
    ∃ e, lookupAssoc (bucketOf entries movementName r0.gender) (personKey r0.name) = some e ∧
      personKey e.name = personKey r0.name ∧
      e ∈ matchingRows entries movementName ∧ e.gender = r0.gender ∧
      ∀ r ∈ matchingRows entries movementName, r.gender = r0.gender →
        personKey r.name = personKey r0.name →
        (if lowerIsBetterFor movementName then e.value ≤ r.value else r.value ≤ e.value) := by
  have hgen : ∀ r ∈ matchingRows entries movementName,
      r.gender = "male" ∨ r.gender = "female" := by
    intro r hr
    simp only [matchingRows, List.mem_filter, Bool.and_eq_true, Bool.or_eq_true,
      decide_eq_true_eq] at hr
    exact hr.2.2
  set lower := lowerIsBetterFor movementName with hlower
  rcases hgen r0 h0 with hg | hg
  · have hB : bucketOf entries movementName r0.gender =
        ((matchingRows entries movementName).filter fun r => decide (r.gender = "male")).foldl
          (insertEntry lower) [] := by
      rw [bucketOf, if_pos hg, buildBuckets_eq]
    set rowsG := (matchingRows entries movementName).filter
      (fun r => decide (r.gender = "male")) with hrowsG
    have hgood := goodBucket_bestFor lower rowsG
    have hr0 : r0 ∈ rowsG := by
      rw [hrowsG]
      exact List.mem_filter.mpr ⟨h0, by simp [hg]⟩
    obtain ⟨e, he⟩ := Option.isSome_iff_exists.mp (hgood.2.2 r0 hr0)
    have hkeys : personKey r0.name ∈ (rowsG.foldl (insertEntry lower) []).map Prod.fst := by
      by_contra hcon
      rw [← lookupAssoc_eq_none_iff] at hcon
      rw [hcon] at he
      exact Option.noConfusion he
    obtain ⟨hek, hemem, hopt⟩ := hgood.2.1 _ e he
    constructor
    · rw [hB]
      exact List.count_eq_one_of_mem hgood.1 hkeys
    · refine ⟨e, by rw [hB]; exact he, hek, (List.mem_filter.mp hemem).1, ?_, ?_⟩
      · have hemale := (List.mem_filter.mp hemem).2
        simp only [decide_eq_true_eq] at hemale
        rw [hemale, hg]
      · intro r hr hgr hkr
        have hrG : r ∈ rowsG := by
          rw [hrowsG]
          refine List.mem_filter.mpr ⟨hr, ?_⟩
          rw [hgr, hg]
          decide
        have hfalse := hopt r hrG hkr
        rw [isBetter_eq_false_iff] at hfalse
        exact hfalse
  · have hgm : ¬ (r0.gender = "male") := by rw [hg]; decide
    have hB : bucketOf entries movementName r0.gender =
        ((matchingRows entries movementName).filter fun r => !decide (r.gender = "male")).foldl
          (insertEntry lower) [] := by
      rw [bucketOf, if_neg hgm, buildBuckets_eq]
    set rowsG := (matchingRows entries movementName).filter
      (fun r => !decide (r.gender = "male")) with hrowsG
    have hgood := goodBucket_bestFor lower rowsG
    have hr0 : r0 ∈ rowsG := by
      rw [hrowsG]
      refine List.mem_filter.mpr ⟨h0, ?_⟩
      rw [hg]
      decide
    obtain ⟨e, he⟩ := Option.isSome_iff_exists.mp (hgood.2.2 r0 hr0)
    have hkeys : personKey r0.name ∈ (rowsG.foldl (insertEntry lower) []).map Prod.fst := by
      by_contra hcon
      rw [← lookupAssoc_eq_none_iff] at hcon
      rw [hcon] at he
      exact Option.noConfusion he
    obtain ⟨hek, hemem, hopt⟩ := hgood.2.1 _ e he
    constructor
    · rw [hB]
      exact List.count_eq_one_of_mem hgood.1 hkeys
    · refine ⟨e, by rw [hB]; exact he, hek, (List.mem_filter.mp hemem).1, ?_, ?_⟩
      · have hene : ¬ (e.gender = "male") := by
          have := (List.mem_filter.mp hemem).2
          simpa using this
        have := (hgen e (List.mem_filter.mp hemem).1).resolve_left hene
        rw [this, hg]
      · intro r hr hgr hkr
        have hrG : r ∈ rowsG := by
          rw [hrowsG]
          refine List.mem_filter.mpr ⟨hr, ?_⟩
          rw [hgr, hg]
          decide
        have hfalse := hopt r hrG hkr
        rw [isBetter_eq_false_iff] at hfalse
        exact hfalse

/-- C2 witness: Alice (two female entries, 100 and 120) contributes exactly
one row to the female bucket, carrying her best value. -/
theorem bucket_one_best_row_per_person_witness :
    ((bucketOf sampleEntries "Barbell Box Squat" "female").map Prod.fst).count
      (personKey "Alice") = 1 ∧
    ∃ e, lookupAssoc (bucketOf sampleEntries "Barbell Box Squat" "female")
        (personKey "Alice") = some e ∧
      personKey e.name = personKey "Alice" ∧
      e ∈ matchingRows sampleEntries "Barbell Box Squat" ∧ e.gender = "female" ∧
      ∀ r ∈ matchingRows sampleEntries "Barbell Box Squat", r.gender = "female" →
        personKey r.name = personKey "Alice" →
        (if lowerIsBetterFor "Barbell Box Squat" then e.value ≤ r.value
         else r.value ≤ e.value) :=
  bucket_one_best_row_per_person sampleEntries "Barbell Box Squat" sampleA1 (by decide)

lemma sortFn_trans (lower : Bool) :
    ∀ a b c : EntryRow, sortFn lower a b → sortFn lower b c → sortFn lower a c := by
  cases lower with
  | false =>
    intro a b c h1 h2
    simp only [sortFn, Bool.false_eq_true, if_false, decide_eq_true_eq] at h1 h2 ⊢
    exact le_trans h2 h1
  | true =>
    intro a b c h1 h2
    simp only [sortFn, if_true, decide_eq_true_eq] at h1 h2 ⊢
    exact le_trans h1 h2

lemma sortFn_total (lower : Bool) :
    ∀ a b : EntryRow, sortFn lower a b || sortFn lower b a := by
  cases lower with
  | false =>
    intro a b
    simp only [sortFn, Bool.false_eq_true, if_false, Bool.or_eq_true, decide_eq_true_eq]
    exact le_total b.value a.value
  | true =>
    intro a b
    simp only [sortFn, if_true, Bool.or_eq_true, decide_eq_true_eq]
    exact le_total a.value b.value

lemma top5_length_le (lower : Bool) (m : List (String × EntryRow)) :
    (top5 lower m).length ≤ 5 := by
  simp only [top5, List.length_take]
  exact Nat.min_le_left _ _

lemma top5_chain (lower : Bool) (m : List (String × EntryRow)) :
    List.Chain' (fun a b => sortFn lower a b = true) (top5 lower m) := by
  have hs := @List.sorted_mergeSort EntryRow (sortFn lower)
    (sortFn_trans lower) (sortFn_total lower) (m.map Prod.snd)
  exact (List.Pairwise.sublist (List.take_sublist 5 _) hs).chain'

/-- C3: each gender list of the leaderboard has at most 5 rows and is
monotonic in the configured direction — adjacent values ascend when the
movement is lower-is-better (unit `time` or on the allow-list), descend
otherwise. -/
theorem leaderboard_top5_sorted (entries : List EntryRow) (movementName : String) :
    (leaderboard entries movementName).male.length ≤ 5 ∧
    (leaderboard entries movementName).female.length ≤ 5 ∧
    List.Chain' (fun a b : EntryRow =>
        if lowerIsBetterFor movementName then a.value ≤ b.value else b.value ≤ a.value)
      (leaderboard entries movementName).male ∧
    List.Chain' (fun a b : EntryRow =>
        if lowerIsBetterFor movementName then a.value ≤ b.value else b.value ≤ a.value)
      (leaderboard entries movementName).female := by
  have hconv : ∀ l : List EntryRow,
      List.Chain' (fun a b => sortFn (lowerIsBetterFor movementName) a b = true) l →
      List.Chain' (fun a b : EntryRow =>
        if lowerIsBetterFor movementName then a.value ≤ b.value else b.value ≤ a.value) l := by
    intro l hl
    refine hl.imp ?_
    intro a b hab
    cases hlow : lowerIsBetterFor movementName with
    | false =>
      rw [hlow] at hab
      simp only [sortFn, Bool.false_eq_true, if_false, decide_eq_true_eq] at hab
      simp only [hlow, Bool.false_eq_true, if_false]
      exact hab
    | true =>
      rw [hlow] at hab
      simp only [sortFn, if_true, decide_eq_true_eq] at hab
      simp only [hlow, if_true]
      exact hab
  by_cases h0 : movementName = ""
  · refine ⟨?_, ?_, ?_, ?_⟩ <;> simp [leaderboard, h0]
  · have hm : (leaderboard entries movementName).male =
        top5 (lowerIsBetterFor movementName)
          (buildBuckets (lowerIsBetterFor movementName) (matchingRows entries movementName)).1 := by
      simp [leaderboard, h0]
    have hf : (leaderboard entries movementName).female =
        top5 (lowerIsBetterFor movementName)
          (buildBuckets (lowerIsBetterFor movementName) (matchingRows entries movementName)).2 := by
      simp [leaderboard, h0]
    rw [hm, hf]
    exact ⟨top5_length_le _ _, top5_length_le _ _,
      hconv _ (top5_chain _ _), hconv _ (top5_chain _ _)⟩

/-- C9: the leaderboard computation is deterministic — it is a pure function
of the supplied entry list and movement name, so equal inputs give equal
outputs. -/
theorem leaderboard_deterministic (e1 e2 : List EntryRow) (m1 m2 : String)
    (he : e1 = e2) (hm : m1 = m2) :
    leaderboard e1 m1 = leaderboard e2 m2 := by
  rw [he, hm]

/-- C9 witness: two runs on the sample log coincide. -/
theorem leaderboard_deterministic_witness :
    leaderboard sampleEntries "Barbell Box Squat" =
      leaderboard sampleEntries "Barbell Box Squat" :=
  leaderboard_deterministic sampleEntries sampleEntries
    "Barbell Box Squat" "Barbell Box Squat" rfl rfl

/-- C10: the November cycle ends 2026-01-04, the January cycle starts
2026-01-12, and every day of the gap week 2026-01-05 … 2026-01-11 belongs to
no cycle and resolves to the TBD sentinel. -/
theorem gap_week_resolves_TBD :
    (getCycleBounds
        { start := NOV_CYCLE_START, weeks := NOV_CYCLE_WEEKS,
          endOverride := none, weekTemplate := NOV_WEEK_TEMPLATE }).2 =
      daysFromCivil 2026 1 4 ∧
    JAN_CYCLE_START = daysFromCivil 2026 1 12 ∧
    ∀ k : Fin 7,
      getCycleForDate (daysFromCivil 2026 1 5 + k.val) = none ∧
      movementForDate (daysFromCivil 2026 1 5 + k.val) = TBD := by
  decide

/-! ### Upsert semantics and formatters -/

lemma saveEntry_key {u nm g : String} {d : Nat} {v : Option ℚ} {no : String} {r : EntryRow}
    (h : saveEntry (some u) nm g d v no = some r) :
    r.user_id = u ∧ r.date = d := by
  cases v with
  | none =>
    simp only [saveEntry] at h
    split at h
    · exact Option.noConfusion h
    · split at h
      · exact Option.noConfusion h
      · exact Option.noConfusion h
  | some q =>
    simp only [saveEntry] at h
    split at h
    · exact Option.noConfusion h
    · split at h
      · exact Option.noConfusion h
      · split at h
        next hq => exact Option.noConfusion h
        next hq =>
          injection h with h
          subst h
          exact ⟨rfl, rfl⟩

lemma sameKey_self (r : EntryRow) : sameKey r.user_id r.date r = true := by
  simp [sameKey]

lemma filter_map_replace (u : String) (d : Nat) (row : EntryRow)
    (hrow : sameKey u d row = true) (s : List EntryRow) :
    (s.map (fun e => if sameKey u d e then row else e)).filter (sameKey u d) =
      List.replicate (s.filter (sameKey u d)).length row := by
  induction s with
  | nil => simp
  | cons e t ih =>
    by_cases he : sameKey u d e = true
    · simp [he, hrow, ih, List.replicate_succ]
    · simp only [List.map_cons, List.filter_cons]
      rw [if_neg he]
      simp only [he, Bool.false_eq_true, if_false]
      exact ih

lemma upsert_key_filter (s : List EntryRow) (row : EntryRow)
    (hlen : (s.filter (sameKey row.user_id row.date)).length ≤ 1) :
    (upsertEntry s row).filter (sameKey row.user_id row.date) = [row] := by
  by_cases h : s.any (sameKey row.user_id row.date) = true
  · simp only [upsertEntry, h, if_true]
    rw [filter_map_replace _ _ _ (sameKey_self row) s]
    obtain ⟨x, hx, hpx⟩ := List.any_eq_true.mp h
    have hxf : x ∈ s.filter (sameKey row.user_id row.date) := List.mem_filter.mpr ⟨hx, hpx⟩
    have h1 : 1 ≤ (s.filter (sameKey row.user_id row.date)).length :=
      List.length_pos.mpr (fun hnil => by rw [hnil] at hxf; exact List.not_mem_nil x hxf)
    rw [le_antisymm hlen h1]
    rfl
  · have h' : s.any (sameKey row.user_id row.date) = false := by
      revert h
      cases s.any (sameKey row.user_id row.date) <;> simp
    simp only [upsertEntry, h', Bool.false_eq_true, if_false]
    rw [List.filter_append]
    have hnil : s.filter (sameKey row.user_id row.date) = [] := by
      rw [List.filter_eq_nil_iff]
      intro a ha
      have := List.any_eq_false.mp h' a ha
      simpa using this
    rw [hnil]
    simp [sameKey_self row]

/-- C4: saving twice for the same (owner, day) — each save building its row
as `saveEntry` does and writing it through the store's (user_id, date) upsert
— leaves exactly one entry under that key, namely the second write's row
(assuming the store respected the at-most-one-per-key invariant before). -/
theorem upsert_twice_keeps_second_write (store : List EntryRow)
    (u nm1 g1 nm2 g2 : String) (d : Nat) (v1 v2 : Option ℚ) (no1 no2 : String)
    (r1 r2 : EntryRow)
    (h1 : saveEntry (some u) nm1 g1 d v1 no1 = some r1)
    (h2 : saveEntry (some u) nm2 g2 d v2 no2 = some r2)
    (hstore : (store.filter (sameKey u d)).length ≤ 1) :
    (upsertEntry (upsertEntry store r1) r2).filter (sameKey u d) = [r2] := by
  obtain ⟨hu1, hd1⟩ := saveEntry_key h1
  obtain ⟨hu2, hd2⟩ := saveEntry_key h2
  have e1 : (upsertEntry store r1).filter (sameKey u d) = [r1] := by
    rw [← hu1, ← hd1] at hstore ⊢
    exact upsert_key_filter store r1 hstore
  have hlen2 : ((upsertEntry store r1).filter (sameKey u d)).length ≤ 1 := by
    rw [e1]
    exact le_refl 1
  rw [← hu2, ← hd2] at hlen2 ⊢
  exact upsert_key_filter _ r2 hlen2

/-- C4 witness: two saves by the same owner for 2025-09-01 (values 100 then
120) leave exactly the second row under that key in an empty store. -/
theorem upsert_twice_keeps_second_write_witness :
    (upsertEntry
        (upsertEntry []
          { user_id := "u1", date := daysFromCivil 2025 9 1,
            movement := "6 Rep Bulgarian Split Squat", value := 100, unit := "lbs",
            name := "Alice", gender := "female", notes := none })
        { user_id := "u1", date := daysFromCivil 2025 9 1,
          movement := "6 Rep Bulgarian Split Squat", value := 120, unit := "lbs",
          name := "Alice", gender := "female", notes := none }).filter
      (sameKey "u1" (daysFromCivil 2025 9 1)) =
    [{ user_id := "u1", date := daysFromCivil 2025 9 1,
       movement := "6 Rep Bulgarian Split Squat", value := 120, unit := "lbs",
       name := "Alice", gender := "female", notes := none }] :=
  upsert_twice_keeps_second_write [] "u1" "Alice" "female" "Alice" "female"
    (daysFromCivil 2025 9 1) (some 100) (some 120) "" "" _ _
    (by decide) (by decide) (by decide)

/-- C8: evaluating the formatters at the stored value 1.25 — the exact-value
(tooltip) formatter is specified (and commented in the source) to truncate,
never round, to at most two decimals, which at 1.25 is 1.25 itself; but the
code picks `maximumFractionDigits = 1` there (the tenths digit is nonzero),
so the displayed value is the rounded 1.3, not the truncated 1.25. -/
theorem formatExactValue_rounds_at_5_over_4 :
    (jsTrunc ((5 / 4 : ℚ) * 100) : ℚ) / 100 = 5 / 4 ∧
    formatExactValueQ (5 / 4) = 13 / 10 ∧
    (13 / 10 : ℚ) ≠ 5 / 4 := by
  refine ⟨by norm_num [jsTrunc], ?_, by norm_num⟩
  norm_num [formatExactValueQ, jsTrunc, roundHalfExpand]

end Mom3nt
